import Mathlib

/-!
Verification of the terminal-todo task/tab engine
(`src/terminal_todo/app.py`, class `TodoApp`).

The embedding below translates the state and operations of the Python
program into Lean:

* `TabTasks` is one value of the `tasks_by_tab` dictionary
  (`{"not_completed": [...], "completed": [...]}`).
* `AppState` carries the fields of `TodoApp` that the claims touch:
  the `Tabs` widget content (ordered `(id, label)` pairs), the
  `tasks_by_tab` dictionary (an association list in insertion order,
  with unique keys, exactly like a Python `dict`), `current_tab_id`,
  the two display panes (the ordered labels of the `TaskRadioButton`
  rows mounted in `#not_completed_tasks` and `#completed_tasks`), and
  `saved_tabs`.
* `Json` is the universe of values `json.load` can produce; the
  dynamic behaviour of the Python operations used by `_load_data`
  (`in`, `.get`, `.items()`, `list(...)`) is modelled by `pyContains`,
  `pyGet`, `pyItems`, `pyList`, each returning `Except PyErr` so that
  an uncaught Python exception is an explicit error value.
-/

set_option autoImplicit false

namespace TerminalTodo

/-- One entry of `TodoApp.tasks_by_tab`: the per-tab pair of ordered
task-text lists. -/
structure TabTasks where
  not_completed : List String
  completed : List String
deriving DecidableEq, Repr

/-- One saved tab as built by `_save_data_after_refresh`
(`{"name": ..., "tasks": {...}}`) and as consumed by `on_mount`. -/
structure TabRec where
  name : String
  tasks : TabTasks
deriving DecidableEq, Repr

/-- The empty per-tab record `{"not_completed": [], "completed": []}`. -/
def TabTasks.empty : TabTasks := ⟨[], []⟩

/-! ### Python dictionary operations on association lists

`tasks_by_tab` is a Python `dict`; we model it as a `List (String × TabTasks)`
in insertion order with unique keys.  Lookup is first-match, which agrees
with `dict` lookup because the keys are unique. -/

/-- Python `d[k]` / `k in d` support: first entry with key `k`. -/
def lookupTab (d : List (String × TabTasks)) (k : String) : Option TabTasks :=
  (d.find? (fun p => p.1 == k)).map (·.2)

/-- Python `d.get(k, ...)` with the empty per-tab record as default. -/
def getTabD (d : List (String × TabTasks)) (k : String) : TabTasks :=
  (lookupTab d k).getD TabTasks.empty

/-- In-place update `d[k] = f d[k]` of the first (unique) entry with key `k`. -/
def updateTab (k : String) (f : TabTasks → TabTasks) :
    List (String × TabTasks) → List (String × TabTasks)
  | [] => []
  | p :: rest =>
    if p.1 = k then (p.1, f p.2) :: rest else p :: updateTab k f rest

/-! ### Application state -/

/-- The fields of `TodoApp` (plus the mounted rows of the two panes)
that the verified operations read and write. -/
structure AppState where
  /-- The ordered `(id, label)` pairs of the `Tab` widgets inside `Tabs`. -/
  tabsWidget : List (String × String)
  /-- `self.tasks_by_tab`. -/
  tasks_by_tab : List (String × TabTasks)
  /-- `self.current_tab_id`. -/
  current_tab_id : Option String
  /-- Labels of the `TaskRadioButton` rows mounted in `#not_completed_tasks`,
  in display order. -/
  pendingPane : List String
  /-- Labels of the `TaskRadioButton` rows mounted in `#completed_tasks`,
  in display order. -/
  completedPane : List String
  /-- `self.saved_tabs` (after a save it holds structured tab records). -/
  saved_tabs : List TabRec
deriving DecidableEq, Repr

/-! ### The reconciler: `TodoApp._save_current_tasks` -/

/-- Models `_save_current_tasks` (app.py 304-318): if there is no active tab, or the
active tab has no `tasks_by_tab` entry, return unchanged; otherwise overwrite
the active tab's entry with the ordered labels currently displayed in the two
panes. -/
def saveCurrentTasks (s : AppState) : AppState :=
  match s.current_tab_id with
  | none => s
  | some tid =>
    if (lookupTab s.tasks_by_tab tid).isSome then
      { s with tasks_by_tab :=
          updateTab tid (fun _ => ⟨s.pendingPane, s.completedPane⟩) s.tasks_by_tab }
    else s

/-! ### The task mutation engine -/

/-- Python's `str.strip()`: drop leading and trailing whitespace. -/
def pyStrip (s : String) : String :=
  String.mk (((s.data.dropWhile Char.isWhitespace).reverse.dropWhile
    Char.isWhitespace).reverse)

/-- Store effect of `on_radio_button_changed` when a row's value became
`True` (app.py 286-289): move `x` from `not_completed` to the end of
`completed`, but only when `x` is found in `not_completed`. -/
def storeMarkCompleted (x : String) (t : TabTasks) : TabTasks :=
  if x ∈ t.not_completed then ⟨t.not_completed.erase x, t.completed ++ [x]⟩ else t

/-- Store effect of `on_radio_button_changed` when a row's value became
`False` (app.py 293-296): move `x` from `completed` to the end of
`not_completed`, but only when `x` is found in `completed`. -/
def storeMarkPending (x : String) (t : TabTasks) : TabTasks :=
  if x ∈ t.completed then ⟨t.not_completed ++ [x], t.completed.erase x⟩ else t

/-- Store effect of `on_task_delete_request` (app.py 351-355): remove `x`
from `not_completed` if found there, else from `completed` if found there,
else do nothing. -/
def storeDelete (x : String) (t : TabTasks) : TabTasks :=
  if x ∈ t.not_completed then { t with not_completed := t.not_completed.erase x }
  else if x ∈ t.completed then { t with completed := t.completed.erase x }
  else t

/-- Store effect of `add_todo_item` (app.py 273-274): append the stripped
text to `not_completed`. -/
def storeAppend (todo : String) (t : TabTasks) : TabTasks :=
  { t with not_completed := t.not_completed ++ [todo] }

/-- Models `add_todo_item` (app.py 266-275): strip the submitted text; if it is
non-empty and a tab is active, mount a row at the end of the pending pane
and, when the active tab has a `tasks_by_tab` entry, append the text to its
`not_completed` list. -/
def addTodoItem (s : AppState) (input : String) : AppState :=
  let todo := pyStrip input
  if todo ≠ "" ∧ s.current_tab_id ≠ none then
    match s.current_tab_id with
    | some tid =>
      if (lookupTab s.tasks_by_tab tid).isSome then
        { s with
          pendingPane := s.pendingPane ++ [todo]
          tasks_by_tab := updateTab tid (storeAppend todo) s.tasks_by_tab }
      else { s with pendingPane := s.pendingPane ++ [todo] }
    | none => { s with pendingPane := s.pendingPane ++ [todo] }
  else s

/-- Models `on_radio_button_changed` (app.py 277-300) for the row at index `i` of
the pending pane (its value just became `True`).  Everything is guarded by
`current_tab_id is not None and current_tab_id in self.tasks_by_tab`; the
row is remounted at the end of the completed pane and the Store moves the
text only when it is found in `not_completed`. -/
def togglePendingRow (s : AppState) (i : Nat) : AppState :=
  match s.current_tab_id with
  | none => s
  | some tid =>
    if (lookupTab s.tasks_by_tab tid).isSome then
      if i < s.pendingPane.length then
        { s with
          pendingPane := s.pendingPane.eraseIdx i
          completedPane := s.completedPane ++ [s.pendingPane.getD i ""]
          tasks_by_tab :=
            updateTab tid (storeMarkCompleted (s.pendingPane.getD i "")) s.tasks_by_tab }
      else s
    else s

/-- Models `on_radio_button_changed` (app.py 277-300) for the row at index `i` of
the completed pane (its value just became `False`); symmetric to
`togglePendingRow`. -/
def toggleCompletedRow (s : AppState) (i : Nat) : AppState :=
  match s.current_tab_id with
  | none => s
  | some tid =>
    if (lookupTab s.tasks_by_tab tid).isSome then
      if i < s.completedPane.length then
        { s with
          completedPane := s.completedPane.eraseIdx i
          pendingPane := s.pendingPane ++ [s.completedPane.getD i ""]
          tasks_by_tab :=
            updateTab tid (storeMarkPending (s.completedPane.getD i "")) s.tasks_by_tab }
      else s
    else s

/-- Models `on_task_delete_request` (app.py 342-356) for the row at index `i` of
the pending pane.  The row is removed from the display unconditionally; the
Store is touched only when `current_tab_id` is truthy (a non-empty id) and
has an entry. -/
def deletePendingRow (s : AppState) (i : Nat) : AppState :=
  if i < s.pendingPane.length then
    let x := s.pendingPane.getD i ""
    match s.current_tab_id with
    | some tid =>
      if tid ≠ "" ∧ (lookupTab s.tasks_by_tab tid).isSome then
        { s with
          pendingPane := s.pendingPane.eraseIdx i
          tasks_by_tab := updateTab tid (storeDelete x) s.tasks_by_tab }
      else { s with pendingPane := s.pendingPane.eraseIdx i }
    | none => { s with pendingPane := s.pendingPane.eraseIdx i }
  else s

/-- Models `on_task_delete_request` (app.py 342-356) for the row at index `i` of
the completed pane; symmetric to `deletePendingRow`. -/
def deleteCompletedRow (s : AppState) (i : Nat) : AppState :=
  if i < s.completedPane.length then
    let x := s.completedPane.getD i ""
    match s.current_tab_id with
    | some tid =>
      if tid ≠ "" ∧ (lookupTab s.tasks_by_tab tid).isSome then
        { s with
          completedPane := s.completedPane.eraseIdx i
          tasks_by_tab := updateTab tid (storeDelete x) s.tasks_by_tab }
      else { s with completedPane := s.completedPane.eraseIdx i }
    | none => { s with completedPane := s.completedPane.eraseIdx i }
  else s

/-! ### Operation sequences on the active tab -/

/-- One user operation on the active tab: submitting task text, toggling the
row at an index of a pane, or requesting deletion of such a row.  A row of
the pending pane has value `False`, so toggling it fires the `True` branch
of the handler, and symmetrically for the completed pane. -/
inductive Op where
  | add (text : String)
  | toggle (fromPending : Bool) (i : Nat)
  | delete (fromPending : Bool) (i : Nat)
deriving DecidableEq, Repr

/-- Apply one operation. -/
def stepOp (s : AppState) : Op → AppState
  | .add text => addTodoItem s text
  | .toggle true i => togglePendingRow s i
  | .toggle false i => toggleCompletedRow s i
  | .delete true i => deletePendingRow s i
  | .delete false i => deleteCompletedRow s i

/-- Apply a sequence of operations in order. -/
def runOps (s : AppState) : List Op → AppState
  | [] => s
  | op :: rest => runOps (stepOp s op) rest

/-- The state right after `on_mount` with no saved data (app.py 159-165): a
single fresh tab "Today" with empty lists and empty panes. -/
def initState : AppState :=
  { tabsWidget := [("tab-1", "Today")]
    tasks_by_tab := [("tab-1", TabTasks.empty)]
    current_tab_id := some "tab-1"
    pendingPane := []
    completedPane := []
    saved_tabs := [] }

/-- The per-tab disjointness property of the claim: no text occurs in both
Store lists of any tab. -/
def storeDisjoint (s : AppState) : Prop :=
  ∀ p ∈ s.tasks_by_tab, ∀ t ∈ p.2.not_completed, t ∉ p.2.completed

/-- Predicate `freshAdd s text` holds when submitting `text` cannot introduce a
duplicate: its stripped form is empty, or is absent from both Store lists of
the active tab. -/
def freshAdd (s : AppState) (text : String) : Bool :=
  decide (pyStrip text = "") ||
    match s.current_tab_id with
    | none => true
    | some tid =>
      match lookupTab s.tasks_by_tab tid with
      | none => true
      | some t => decide (pyStrip text ∉ t.not_completed ∧ pyStrip text ∉ t.completed)

/-- A sequence of operations whose every `add` is fresh for the state at
which it is applied. -/
def freshOps (s : AppState) : List Op → Bool
  | [] => true
  | op :: rest =>
    (match op with
     | .add text => freshAdd s text
     | _ => true) && freshOps (stepOp s op) rest

/-! ### Invariant machinery for claim C1 -/

/-- Per-tab strong invariant: within each tab, all texts across the two
Store lists are pairwise distinct. -/
def tabsNodup (s : AppState) : Prop :=
  ∀ p ∈ s.tasks_by_tab, (p.2.not_completed ++ p.2.completed).Nodup

theorem lookupTab_mem {l : List (String × TabTasks)} {k : String} {t : TabTasks}
    (h : lookupTab l k = some t) : (k, t) ∈ l := by
  rw [lookupTab] at h
  rcases hf : l.find? (fun p => p.1 == k) with _ | p
  · rw [hf] at h; exact Option.noConfusion h
  · rw [hf] at h
    have hm := List.mem_of_find?_eq_some hf
    have hk := List.find?_some hf
    simp only [beq_iff_eq] at hk
    rcases p with ⟨k', t'⟩
    dsimp at hk
    obtain rfl : k' = k := hk
    obtain rfl : t' = t := Option.some.inj h
    exact hm

theorem mem_updateTab {k : String} {f : TabTasks → TabTasks} :
    ∀ {l : List (String × TabTasks)} {p : String × TabTasks}, p ∈ updateTab k f l →
      p ∈ l ∨ ∃ t₀, lookupTab l k = some t₀ ∧ p = (k, f t₀)
  | [], p, hp => by rw [updateTab] at hp; cases hp
  | q :: rest, p, hp => by
    by_cases hq : q.1 = k
    · rw [updateTab, if_pos hq] at hp
      rcases List.mem_cons.mp hp with h | h
      · right
        refine ⟨q.2, ?_, by rw [h, hq]⟩
        rw [lookupTab, List.find?_cons_of_pos _ (by simp [hq])]
        rfl
      · left; exact List.mem_cons_of_mem _ h
    · rw [updateTab, if_neg hq] at hp
      rcases List.mem_cons.mp hp with h | h
      · left; simp [h]
      · rcases mem_updateTab h with h' | ⟨t₀, ht, hp'⟩
        · left; exact List.mem_cons_of_mem _ h'
        · right
          refine ⟨t₀, ?_, hp'⟩
          rw [lookupTab, List.find?_cons_of_neg _ (by simp [hq])]
          exact ht

theorem nodup_fresh_append {nc c : List String} {x : String} (h : (nc ++ c).Nodup)
    (hnc : x ∉ nc) (hc : x ∉ c) : ((nc ++ [x]) ++ c).Nodup := by
  rw [List.append_assoc, List.singleton_append, List.nodup_middle]
  exact List.nodup_cons.mpr ⟨by simp [hnc, hc], h⟩

theorem nodup_move_to_completed {nc c : List String} {x : String}
    (h : (nc ++ c).Nodup) (hx : x ∈ nc) : (nc.erase x ++ (c ++ [x])).Nodup := by
  rw [← List.append_assoc]
  rcases List.nodup_append.mp h with ⟨h1, h2, hd⟩
  have hxc : x ∉ c := fun hcm => hd hx hcm
  refine List.nodup_append.mpr ⟨List.nodup_append.mpr
    ⟨h1.sublist (List.erase_sublist x nc), h2,
      fun a ha hac => hd ((List.erase_sublist x nc).subset ha) hac⟩,
    List.nodup_singleton x, fun a ha hax => ?_⟩
  rcases List.mem_append.mp ha with ha' | ha'
  · rw [List.mem_singleton.mp hax] at ha'
    exact h1.not_mem_erase ha'
  · rw [List.mem_singleton.mp hax] at ha'
    exact hxc ha'

theorem nodup_move_to_pending {nc c : List String} {x : String}
    (h : (nc ++ c).Nodup) (hx : x ∈ c) : ((nc ++ [x]) ++ c.erase x).Nodup := by
  rcases List.nodup_append.mp h with ⟨h1, h2, hd⟩
  have hxnc : x ∉ nc := fun hm => hd hm hx
  rw [List.append_assoc, List.singleton_append, List.nodup_middle]
  refine List.nodup_cons.mpr ⟨fun hm => ?_,
    List.nodup_append.mpr ⟨h1, h2.sublist (List.erase_sublist x c),
      fun a ha hac => hd ha ((List.erase_sublist x c).subset hac)⟩⟩
  rcases List.mem_append.mp hm with hm' | hm'
  · exact hxnc hm'
  · exact h2.not_mem_erase hm'

theorem storeAppend_nodup {t : TabTasks} {x : String}
    (h : (t.not_completed ++ t.completed).Nodup) (hn : x ∉ t.not_completed)
    (hc : x ∉ t.completed) :
    ((storeAppend x t).not_completed ++ (storeAppend x t).completed).Nodup :=
  nodup_fresh_append h hn hc

theorem storeMarkCompleted_nodup {t : TabTasks} {x : String}
    (h : (t.not_completed ++ t.completed).Nodup) :
    ((storeMarkCompleted x t).not_completed ++ (storeMarkCompleted x t).completed).Nodup := by
  rw [storeMarkCompleted]
  split
  · exact nodup_move_to_completed h (by assumption)
  · exact h

theorem storeMarkPending_nodup {t : TabTasks} {x : String}
    (h : (t.not_completed ++ t.completed).Nodup) :
    ((storeMarkPending x t).not_completed ++ (storeMarkPending x t).completed).Nodup := by
  rw [storeMarkPending]
  split
  · exact nodup_move_to_pending h (by assumption)
  · exact h

theorem storeDelete_nodup {t : TabTasks} {x : String}
    (h : (t.not_completed ++ t.completed).Nodup) :
    ((storeDelete x t).not_completed ++ (storeDelete x t).completed).Nodup := by
  rw [storeDelete]
  split
  · exact h.sublist ((List.erase_sublist x t.not_completed).append (List.Sublist.refl _))
  · split
    · exact h.sublist ((List.Sublist.refl _).append (List.erase_sublist x t.completed))
    · exact h

theorem addTodoItem_preserves_tabsNodup (s : AppState) (text : String)
    (h : tabsNodup s) (hfr : freshAdd s text = true) :
    tabsNodup (addTodoItem s text) := by
  rw [addTodoItem]
  split
  · rename_i hcond
    rcases hs : s.current_tab_id with _ | tid
    · exact fun p hp => h p hp
    · dsimp only
      split
      · intro p hp
        rcases mem_updateTab hp with hmem | ⟨t₀, ht₀, hpeq⟩
        · exact h p hmem
        · subst hpeq
          have hnodup := h (tid, t₀) (lookupTab_mem ht₀)
          simp only [freshAdd, hs, ht₀, Bool.or_eq_true, decide_eq_true_eq] at hfr
          rcases hfr with hemp | ⟨hn, hc⟩
          · exact absurd hemp hcond.1
          · exact storeAppend_nodup hnodup hn hc
      · exact fun p hp => h p hp
  · exact h

theorem togglePendingRow_preserves_tabsNodup (s : AppState) (i : Nat)
    (h : tabsNodup s) : tabsNodup (togglePendingRow s i) := by
  rw [togglePendingRow]
  rcases s.current_tab_id with _ | tid
  · exact h
  · dsimp only
    split
    · split
      · intro p hp
        rcases mem_updateTab hp with hmem | ⟨t₀, ht₀, hpeq⟩
        · exact h p hmem
        · subst hpeq
          exact storeMarkCompleted_nodup (h (tid, t₀) (lookupTab_mem ht₀))
      · exact h
    · exact h

theorem toggleCompletedRow_preserves_tabsNodup (s : AppState) (i : Nat)
    (h : tabsNodup s) : tabsNodup (toggleCompletedRow s i) := by
  rw [toggleCompletedRow]
  rcases s.current_tab_id with _ | tid
  · exact h
  · dsimp only
    split
    · split
      · intro p hp
        rcases mem_updateTab hp with hmem | ⟨t₀, ht₀, hpeq⟩
        · exact h p hmem
        · subst hpeq
          exact storeMarkPending_nodup (h (tid, t₀) (lookupTab_mem ht₀))
      · exact h
    · exact h

theorem deletePendingRow_preserves_tabsNodup (s : AppState) (i : Nat)
    (h : tabsNodup s) : tabsNodup (deletePendingRow s i) := by
  rw [deletePendingRow]
  split
  · rcases s.current_tab_id with _ | tid
    · exact fun p hp => h p hp
    · dsimp only
      split
      · intro p hp
        rcases mem_updateTab hp with hmem | ⟨t₀, ht₀, hpeq⟩
        · exact h p hmem
        · subst hpeq
          exact storeDelete_nodup (h (tid, t₀) (lookupTab_mem ht₀))
      · exact fun p hp => h p hp
  · exact h

theorem deleteCompletedRow_preserves_tabsNodup (s : AppState) (i : Nat)
    (h : tabsNodup s) : tabsNodup (deleteCompletedRow s i) := by
  rw [deleteCompletedRow]
  split
  · rcases s.current_tab_id with _ | tid
    · exact fun p hp => h p hp
    · dsimp only
      split
      · intro p hp
        rcases mem_updateTab hp with hmem | ⟨t₀, ht₀, hpeq⟩
        · exact h p hmem
        · subst hpeq
          exact storeDelete_nodup (h (tid, t₀) (lookupTab_mem ht₀))
      · exact fun p hp => h p hp
  · exact h

theorem runOps_preserves_tabsNodup : ∀ (ops : List Op) (s : AppState),
    tabsNodup s → freshOps s ops = true → tabsNodup (runOps s ops)
  | [], _, h, _ => h
  | op :: rest, s, h, hfr => by
    rw [runOps]
    rcases op with text | ⟨fp, i⟩ | ⟨fp, i⟩
    · simp only [freshOps, Bool.and_eq_true] at hfr
      refine runOps_preserves_tabsNodup rest _ ?_ hfr.2
      exact addTodoItem_preserves_tabsNodup s text h hfr.1
    · simp only [freshOps, Bool.and_eq_true] at hfr
      refine runOps_preserves_tabsNodup rest _ ?_ hfr.2
      rcases fp
      · exact toggleCompletedRow_preserves_tabsNodup s i h
      · exact togglePendingRow_preserves_tabsNodup s i h
    · simp only [freshOps, Bool.and_eq_true] at hfr
      refine runOps_preserves_tabsNodup rest _ ?_ hfr.2
      rcases fp
      · exact deleteCompletedRow_preserves_tabsNodup s i h
      · exact deletePendingRow_preserves_tabsNodup s i h

/-! ### Claim C1 -/

/-- C1, counterexample: the claimed invariant ("no task text appears in both
the pending and completed lists of a tab") is violated in a state reachable
from the initial state by the operations: add "A", toggle the pending row 0,
add "A" again.  The Store of tab "tab-1" then holds "A" in both lists. -/
theorem c1_counterexample :
    "A" ∈ (getTabD (runOps initState
        [.add "A", .toggle true 0, .add "A"]).tasks_by_tab "tab-1").not_completed ∧
    "A" ∈ (getTabD (runOps initState
        [.add "A", .toggle true 0, .add "A"]).tasks_by_tab "tab-1").completed ∧
    ¬ storeDisjoint (runOps initState [.add "A", .toggle true 0, .add "A"]) := by
  refine ⟨by decide, by decide, ?_⟩
  intro hdis
  exact absurd (by decide : "A" ∈ (TabTasks.mk ["A"] ["A"]).completed)
    (hdis ("tab-1", ⟨["A"], ["A"]⟩) (by decide) "A" (by decide))

/-- C1 (amended): after any sequence of add, toggle and delete operations on
the active tab in which every added text is (after stripping) not already
present in the active tab's Store lists, no text appears in both the pending
and the completed list of any tab. -/
theorem c1_invariant_fresh_adds (ops : List Op)
    (hfresh : freshOps initState ops = true) :
    storeDisjoint (runOps initState ops) := by
  have hinit : tabsNodup initState := by
    intro p hp
    rcases List.mem_singleton.mp hp with rfl
    exact List.nodup_nil
  have hnodup := runOps_preserves_tabsNodup ops initState hinit hfresh
  intro p hp t ht hc
  exact (List.disjoint_of_nodup_append (hnodup p hp)) ht hc

/-- C1, witness: a concrete fresh sequence (add "A", complete it, add "B",
delete the completed row) for which the invariant theorem applies. -/
theorem c1_witness :
    freshOps initState [.add "A", .toggle true 0, .add "B", .delete false 0] = true ∧
    storeDisjoint (runOps initState [.add "A", .toggle true 0, .add "B", .delete false 0]) :=
  ⟨by decide, c1_invariant_fresh_adds _ (by decide)⟩

/-! ### The persistence codec: `_load_data` / `_save_data_after_refresh`

`Json` is the universe of values `json.load` can produce.  An object keeps
its entries in document order; a parsed object has pairwise-distinct keys
(the Python `json` module keeps the last duplicate key, so a parsed `dict`
never has two), which makes first-match lookup agree with `dict` lookup. -/

inductive Json where
  | null
  | bool (b : Bool)
  | num (n : Int)
  | str (s : String)
  | arr (elems : List Json)
  | obj (entries : List (String × Json))
deriving Repr

/-- Python exception classes that `_load_data` can let escape (only
`json.JSONDecodeError` and `IOError` are caught). -/
inductive PyErr where
  | typeError
  | attributeError
deriving DecidableEq, Repr

/-- What the data file contains when `_load_data` runs. -/
inductive FileState where
  | missing
  | unreadable
  | malformed
  | parsed (data : Json)

/-- Python's `needle in hay` for `str` operands: substring containment. -/
def substrMem (needle hay : String) : Bool :=
  hay.data.tails.any (fun t => needle.data.isPrefixOf t)

/-- Python's `key in data` on a `json.load` result: key membership for a
dict, element equality for a list (a non-`str` element never equals a
`str`), substring test for a `str`, and `TypeError` for the non-container
values `int`/`float`/`bool`/`None`. -/
def pyContains (data : Json) (key : String) : Except PyErr Bool :=
  match data with
  | .obj kvs => .ok (kvs.any (fun p => p.1 == key))
  | .arr xs => .ok (xs.any (fun j => match j with | .str s => s == key | _ => false))
  | .str s => .ok (substrMem key s)
  | .num _ => .error .typeError
  | .bool _ => .error .typeError
  | .null => .error .typeError

/-- Python's `data.get(key, default)`: only a dict has `.get`; every other
`json.load` value raises `AttributeError`. -/
def pyGet (data : Json) (key : String) (default : Json) : Except PyErr Json :=
  match data with
  | .obj kvs => .ok (((kvs.find? (fun p => p.1 == key)).map (·.2)).getD default)
  | _ => .error .attributeError

/-- Python's `list(v)`: a list copies, a `str` becomes its characters, a
dict lists its keys, and the remaining values raise `TypeError`. -/
def pyList (v : Json) : Except PyErr (List Json)  :=
  match v with
  | .arr xs => .ok xs
  | .str s => .ok (s.data.map (fun c => Json.str (String.mk [c])))
  | .obj kvs => .ok (kvs.map (fun p => Json.str p.1))
  | _ => .error .typeError

/-- The default of `tasks_by_tab.get(tab_id, {"not_completed": [], "completed": []})`
(app.py line 85). -/
def emptyTasksJson : Json :=
  .obj [("not_completed", .arr []), ("completed", .arr [])]

/-- The loop body of the legacy migration (app.py 84-94): for each
`(tab_id, tab_name)` of `tab_names.items()` in order, build
`{"name": tab_name, "tasks": {"not_completed": list(...), "completed": list(...)}}`,
defaulting a missing `tasks_by_tab` entry or field to empty. -/
def migrateEntries (tasksByTab : Json) :
    List (String × Json) → Except PyErr (List Json)
  | [] => .ok []
  | (tabId, tabName) :: rest => do
    let tabTasks ← pyGet tasksByTab tabId emptyTasksJson
    let ncJ ← pyGet tabTasks "not_completed" (.arr [])
    let nc ← pyList ncJ
    let cJ ← pyGet tabTasks "completed" (.arr [])
    let c ← pyList cJ
    let restTabs ← migrateEntries tasksByTab rest
    .ok (Json.obj [("name", tabName),
      ("tasks", .obj [("not_completed", .arr nc), ("completed", .arr c)])] :: restTabs)

/-- Python `tab_names.items()`: only a dict has `.items()`. -/
def pyItems (v : Json) : Except PyErr (List (String × Json)) :=
  match v with
  | .obj kvs => .ok kvs
  | _ => .error .attributeError

/-- Models `_load_data` (app.py 70-97), producing the value assigned to
`self.saved_tabs` (the Python `[]` is represented as `Json.arr []`).  A
missing file, an `IOError` while reading, and a `json.JSONDecodeError` all
leave `saved_tabs = []`; any other exception raised inside the `try` block
(for example by `"tabs" in data` or `data.get`) escapes to the caller and
is returned as `.error`.  The `elif` condition
`"tasks_by_tab" in data and "tab_names" in data` short-circuits. -/
def loadData (file : FileState) : Except PyErr Json :=
  match file with
  | .missing => .ok (.arr [])
  | .unreadable => .ok (.arr [])
  | .malformed => .ok (.arr [])
  | .parsed data => do
    let hasTabs ← pyContains data "tabs"
    if hasTabs then
      pyGet data "tabs" (.arr [])
    else
      let hasTasksByTab ← pyContains data "tasks_by_tab"
      if hasTasksByTab then
        let hasTabNames ← pyContains data "tab_names"
        if hasTabNames then do
          let tasksByTab ← pyGet data "tasks_by_tab" (.obj [])
          let tabNames ← pyGet data "tab_names" (.obj [])
          let entries ← pyItems tabNames
          let migrated ← migrateEntries tasksByTab entries
          .ok (.arr migrated)
        else .ok (.arr [])
      else .ok (.arr [])

/-- A `.get` on a well-formed saved-tab object, total because `on_mount`
only applies it to dicts (app.py 143-144, 151-152). -/
def pyGetD (data : Json) (key : String) (default : Json) : Json :=
  match data with
  | .obj kvs => ((kvs.find? (fun p => p.1 == key)).map (·.2)).getD default
  | _ => default

/-- Read a task-text element back; `_save_data_after_refresh` and the
migration only store strings in the two task lists. -/
def asStr (j : Json) : String :=
  match j with
  | .str s => s
  | _ => ""

/-- Texts of a stored task list. -/
def asStrList (j : Json) : List String :=
  match j with
  | .arr xs => xs.map asStr
  | _ => []

/-- How `on_mount` (app.py 142-153) consumes one entry of `saved_tabs`:
`name = saved.get("name", "Tab")`, `tasks = saved.get("tasks", {})`, and the
two lists via `tasks.get(..., [])`. -/
def decodeSavedTab (j : Json) : TabRec :=
  { name := asStr (pyGetD j "name" (.str "Tab"))
    tasks :=
      { not_completed := asStrList (pyGetD (pyGetD j "tasks" (.obj [])) "not_completed" (.arr []))
        completed := asStrList (pyGetD (pyGetD j "tasks" (.obj [])) "completed" (.arr [])) } }

/-- How `on_mount` consumes the whole `saved_tabs` list. -/
def decodeSavedTabs (j : Json) : List TabRec :=
  match j with
  | .arr xs => xs.map decodeSavedTab
  | _ => []

/-- Composition of `_load_data` with `on_mount`'s consumption of `saved_tabs`: the
loaded ordered tab collection. -/
def loadTabs (file : FileState) : Except PyErr (List TabRec) :=
  (loadData file).map decodeSavedTabs

/-- One element of the `tabs_data` list built by `_save_data_after_refresh`
(app.py 111-123), as a JSON object. -/
def encodeTab (t : TabRec) : Json :=
  .obj [("name", .str t.name),
    ("tasks", .obj [("not_completed", .arr (t.tasks.not_completed.map .str)),
      ("completed", .arr (t.tasks.completed.map .str))])]

/-- The persisted document `{"tabs": tabs_data}` (app.py 125). -/
def saveDoc (tabs : List TabRec) : Json :=
  .obj [("tabs", .arr (tabs.map encodeTab))]

/-! ### Claims C2, C3, C4 -/

theorem decodeSavedTab_encodeTab (t : TabRec) : decodeSavedTab (encodeTab t) = t := by
  rcases t with ⟨name, nc, c⟩
  show TabRec.mk name ⟨(nc.map Json.str).map asStr, (c.map Json.str).map asStr⟩ = _
  rw [List.map_map, List.map_map]
  have h : (asStr ∘ Json.str) = id := funext fun _ => rfl
  rw [h, List.map_id, List.map_id]

/-- C2: saving any non-empty ordered tab collection as the persisted
document and loading it back reproduces exactly the tab names and per-tab
pending/completed text lists, in order. -/
theorem c2_save_load_round_trip (tabs : List TabRec) (hne : tabs ≠ []) :
    loadTabs (.parsed (saveDoc tabs)) = .ok tabs := by
  have h1 : loadTabs (.parsed (saveDoc tabs)) =
      .ok ((tabs.map encodeTab).map decodeSavedTab) := rfl
  rw [h1, List.map_map]
  have h2 : (decodeSavedTab ∘ encodeTab) = id := funext decodeSavedTab_encodeTab
  rw [h2, List.map_id]

/-- C2, witness: the round trip at a concrete two-tab collection. -/
theorem c2_save_load_round_trip_witness :
    ([⟨"Work", ⟨["A"], ["B"]⟩⟩, ⟨"Home", ⟨[], []⟩⟩] : List TabRec) ≠ [] ∧
    loadTabs (.parsed (saveDoc [⟨"Work", ⟨["A"], ["B"]⟩⟩, ⟨"Home", ⟨[], []⟩⟩])) =
      .ok [⟨"Work", ⟨["A"], ["B"]⟩⟩, ⟨"Home", ⟨[], []⟩⟩] :=
  ⟨by simp, c2_save_load_round_trip _ (by simp)⟩

/-- The value of one `tasks_by_tab` entry in a well-formed legacy document. -/
def encodeLegacyTasks (t : TabTasks) : Json :=
  .obj [("not_completed", .arr (t.not_completed.map .str)),
    ("completed", .arr (t.completed.map .str))]

/-- A well-formed legacy document
`{"tasks_by_tab": {...}, "tab_names": {...}}` (no modern `"tabs"` key). -/
def legacyDoc (tabNames : List (String × String))
    (tasksByTab : List (String × TabTasks)) : Json :=
  .obj [("tasks_by_tab", .obj (tasksByTab.map (fun p => (p.1, encodeLegacyTasks p.2)))),
    ("tab_names", .obj (tabNames.map (fun p => (p.1, Json.str p.2))))]

theorem pyGet_obj_encodeLegacy : ∀ (l : List (String × TabTasks)) (k : String),
    pyGet (.obj (l.map (fun p => (p.1, encodeLegacyTasks p.2)))) k emptyTasksJson =
      .ok (encodeLegacyTasks (getTabD l k))
  | [], _ => rfl
  | q :: rest, k => by
    cases hbeq : (q.1 == k) with
    | true =>
      simp only [pyGet, getTabD, lookupTab, List.map_cons, List.find?_cons, hbeq]
      rfl
    | false =>
      have ih := pyGet_obj_encodeLegacy rest k
      simp only [pyGet, getTabD, lookupTab, List.map_cons, List.find?_cons, hbeq] at ih ⊢
      exact ih

theorem migrateEntries_spec (tasksByTab : List (String × TabTasks)) :
    ∀ names : List (String × String),
      migrateEntries (.obj (tasksByTab.map (fun p => (p.1, encodeLegacyTasks p.2))))
        (names.map (fun p => (p.1, Json.str p.2))) =
      .ok (names.map (fun p => encodeTab ⟨p.2, getTabD tasksByTab p.1⟩))
  | [] => rfl
  | q :: rest => by
    rw [List.map_cons, migrateEntries]
    rw [pyGet_obj_encodeLegacy tasksByTab q.1]
    rw [migrateEntries_spec tasksByTab rest]
    rfl

/-- C3: loading a well-formed legacy document produces one tab per
`tab_names` entry, in `tab_names` order, with that entry's name and the task
lists found in `tasks_by_tab` under the same key (missing task lists default
to empty); `tasks_by_tab` keys without a `tab_names` entry are dropped.  In
particular (see the witness) `tab_names={"x":"Work"}`,
`tasks_by_tab={"x":{"not_completed":["A"],"completed":["B"]}}` loads as one
tab "Work" with pending ["A"] and completed ["B"]. -/
theorem c3_legacy_migration (tabNames : List (String × String))
    (tasksByTab : List (String × TabTasks))
    (hn : (tabNames.map Prod.fst).Nodup) (ht : (tasksByTab.map Prod.fst).Nodup) :
    loadTabs (.parsed (legacyDoc tabNames tasksByTab)) =
      .ok (tabNames.map (fun p => ⟨p.2, getTabD tasksByTab p.1⟩)) := by
  have h1 : loadTabs (.parsed (legacyDoc tabNames tasksByTab)) =
      Except.map decodeSavedTabs
        ((migrateEntries (.obj (tasksByTab.map (fun p => (p.1, encodeLegacyTasks p.2))))
          (tabNames.map (fun p => (p.1, Json.str p.2)))).bind
          (fun m => .ok (.arr m))) := rfl
  rw [h1, migrateEntries_spec]
  show Except.ok ((tabNames.map (fun p => encodeTab ⟨p.2, getTabD tasksByTab p.1⟩)).map
    decodeSavedTab) = _
  rw [List.map_map]
  congr 1
  exact List.map_congr_left fun p _ => decodeSavedTab_encodeTab _

/-- C3, witness: the migration at the concrete legacy document from the
claim. -/
theorem c3_legacy_migration_witness :
    ((([("x", "Work")] : List (String × String)).map Prod.fst).Nodup ∧
      (([("x", TabTasks.mk ["A"] ["B"])].map Prod.fst).Nodup)) ∧
    loadTabs (.parsed (legacyDoc [("x", "Work")] [("x", ⟨["A"], ["B"]⟩)])) =
      .ok [⟨"Work", ⟨["A"], ["B"]⟩⟩] := by
  refine ⟨⟨by decide, by decide⟩, ?_⟩
  rw [c3_legacy_migration [("x", "Work")] [("x", ⟨["A"], ["B"]⟩)] (by decide) (by decide)]
  rfl

/-- Unfolding of `_load_data` on a parsed top-level object. -/
theorem loadData_obj (kvs : List (String × Json)) :
    loadData (.parsed (.obj kvs)) =
      if kvs.any (fun p => p.1 == "tabs") then
        pyGet (.obj kvs) "tabs" (.arr [])
      else if kvs.any (fun p => p.1 == "tasks_by_tab") then
        if kvs.any (fun p => p.1 == "tab_names") then do
          let tasksByTab ← pyGet (.obj kvs) "tasks_by_tab" (.obj [])
          let tabNames ← pyGet (.obj kvs) "tab_names" (.obj [])
          let entries ← pyItems tabNames
          let migrated ← migrateEntries tasksByTab entries
          .ok (.arr migrated)
        else .ok (.arr [])
      else .ok (.arr []) := rfl

/-- C4, counterexample: the claim says load returns the empty tab collection
and raises nothing for a file holding any byte sequence; but the valid JSON
document `5` makes `"tabs" in data` raise `TypeError`, which the
`except (json.JSONDecodeError, IOError)` clause does not catch, so
`_load_data` raises to its caller instead of returning the empty
collection. -/
theorem c4_counterexample :
    loadData (.parsed (.num 5)) = .error .typeError ∧
    loadTabs (.parsed (.num 5)) ≠ .ok [] :=
  ⟨rfl, fun h => Except.noConfusion h⟩

/-- C4 (amended): load returns the empty tab collection and lets no
exception escape for a missing file, an unreadable file, unparsable JSON,
and any valid JSON document whose top level is an object that has no
`"tabs"` key and lacks at least one of the two legacy keys; other top-level
shapes can raise (see the counterexample). -/
theorem c4_load_missing_or_malformed_yields_empty (file : FileState)
    (hgood : file = .missing ∨ file = .unreadable ∨ file = .malformed ∨
      ∃ kvs, file = .parsed (.obj kvs) ∧
        "tabs" ∉ kvs.map Prod.fst ∧
        ("tasks_by_tab" ∉ kvs.map Prod.fst ∨ "tab_names" ∉ kvs.map Prod.fst)) :
    loadTabs file = .ok [] := by
  rcases hgood with rfl | rfl | rfl | ⟨kvs, rfl, htabs, hleg⟩
  · rfl
  · rfl
  · rfl
  · have htabs' : kvs.any (fun p => p.1 == "tabs") = false := by
      rw [List.any_eq_false]
      intro p hp hbeq
      exact htabs (beq_iff_eq.mp hbeq ▸ List.mem_map_of_mem Prod.fst hp)
    cases hb : kvs.any (fun p => p.1 == "tasks_by_tab") with
    | false =>
      rw [loadTabs, loadData_obj, htabs', hb]
      rfl
    | true =>
      have hmem : "tasks_by_tab" ∈ kvs.map Prod.fst := by
        rcases List.any_eq_true.mp hb with ⟨p, hp, hbeq⟩
        rw [beq_iff_eq] at hbeq
        exact hbeq ▸ List.mem_map_of_mem Prod.fst hp
      rcases hleg with hL | hR
      · exact absurd hmem hL
      · have hnames : kvs.any (fun p => p.1 == "tab_names") = false := by
          rw [List.any_eq_false]
          intro p hp hbeq
          exact hR (beq_iff_eq.mp hbeq ▸ List.mem_map_of_mem Prod.fst hp)
        rw [loadTabs, loadData_obj, htabs', hb, hnames]
        rfl

/-- C4, witness: the amended theorem applied to a parsed object without the
recognised keys. -/
theorem c4_load_missing_or_malformed_yields_empty_witness :
    ((.parsed (.obj [("foo", .null)]) : FileState) = .missing ∨
      (.parsed (.obj [("foo", .null)]) : FileState) = .unreadable ∨
      (.parsed (.obj [("foo", .null)]) : FileState) = .malformed ∨
      ∃ kvs, (.parsed (.obj [("foo", .null)]) : FileState) = .parsed (.obj kvs) ∧
        "tabs" ∉ kvs.map Prod.fst ∧
        ("tasks_by_tab" ∉ kvs.map Prod.fst ∨ "tab_names" ∉ kvs.map Prod.fst)) ∧
    loadTabs (.parsed (.obj [("foo", .null)])) = .ok [] := by
  have hgood : (.parsed (.obj [("foo", .null)]) : FileState) = .missing ∨
      (.parsed (.obj [("foo", .null)]) : FileState) = .unreadable ∨
      (.parsed (.obj [("foo", .null)]) : FileState) = .malformed ∨
      ∃ kvs, (.parsed (.obj [("foo", .null)]) : FileState) = .parsed (.obj kvs) ∧
        "tabs" ∉ kvs.map Prod.fst ∧
        ("tasks_by_tab" ∉ kvs.map Prod.fst ∨ "tab_names" ∉ kvs.map Prod.fst) :=
    Or.inr (Or.inr (Or.inr ⟨[("foo", .null)], rfl, by decide, Or.inl (by decide)⟩))
  exact ⟨hgood, c4_load_missing_or_malformed_yields_empty _ hgood⟩

/-! ### Claim C5: the reconciler -/

theorem lookupTab_updateTab : ∀ {l : List (String × TabTasks)} {k : String} {t₀ : TabTasks}
    (f : TabTasks → TabTasks), lookupTab l k = some t₀ →
    lookupTab (updateTab k f l) k = some (f t₀)
  | [], _, _, _, h => Option.noConfusion h
  | q :: rest, k, t₀, f, h => by
    cases hbeq : (q.1 == k) with
    | true =>
      have hq : q.1 = k := beq_iff_eq.mp hbeq
      simp only [lookupTab, List.find?_cons, hbeq] at h
      have hqt : q.2 = t₀ := Option.some.inj h
      rw [updateTab, if_pos hq]
      simp only [lookupTab, List.find?_cons, hbeq]
      exact congrArg (fun t => Option.some (f t)) hqt
    | false =>
      have hq : ¬ q.1 = k := by
        intro he
        rw [he] at hbeq
        simp at hbeq
      simp only [lookupTab, List.find?_cons, hbeq] at h
      rw [updateTab, if_neg hq]
      simp only [lookupTab, List.find?_cons, hbeq]
      exact lookupTab_updateTab f h

theorem saveCurrentTasks_lookup {s : AppState} {tid : String} {t₀ : TabTasks}
    (hcur : s.current_tab_id = some tid) (ht₀ : lookupTab s.tasks_by_tab tid = some t₀) :
    lookupTab (saveCurrentTasks s).tasks_by_tab tid =
      some ⟨s.pendingPane, s.completedPane⟩ := by
  simp only [saveCurrentTasks, hcur]
  rw [if_pos (by rw [ht₀]; rfl)]
  exact lookupTab_updateTab _ ht₀

theorem saveCurrentTasks_none {s : AppState} (hnone : s.current_tab_id = none) :
    saveCurrentTasks s = s := by
  simp only [saveCurrentTasks, hnone]

/-- C5: when a tab is active and its Store entry exists, the reconcile step
(`_save_current_tasks`) makes that tab's Store record exactly the ordered
texts displayed in the two panes; when no tab is active, reconciliation
changes nothing. -/
theorem c5_reconcile_matches_display (s : AppState) :
    (∀ tid t₀, s.current_tab_id = some tid → lookupTab s.tasks_by_tab tid = some t₀ →
      lookupTab (saveCurrentTasks s).tasks_by_tab tid =
        some ⟨s.pendingPane, s.completedPane⟩) ∧
    (s.current_tab_id = none → saveCurrentTasks s = s) :=
  ⟨fun _ _ hcur ht₀ => saveCurrentTasks_lookup hcur ht₀,
   fun hnone => saveCurrentTasks_none hnone⟩

/-- A sample state whose display panes differ from its Store entry. -/
def reconcileSample : AppState :=
  { tabsWidget := [("tab-1", "Today")]
    tasks_by_tab := [("tab-1", ⟨["X"], ["Y"]⟩)]
    current_tab_id := some "tab-1"
    pendingPane := ["A"]
    completedPane := ["B"]
    saved_tabs := [] }

/-- C5, witness: reconciling the sample state overwrites the entry with the
displayed rows. -/
theorem c5_reconcile_matches_display_witness :
    lookupTab (saveCurrentTasks reconcileSample).tasks_by_tab "tab-1" =
      some ⟨["A"], ["B"]⟩ :=
  (c5_reconcile_matches_display reconcileSample).1 "tab-1" ⟨["X"], ["Y"]⟩ rfl rfl

/-! ### Claim C6: toggling a row twice -/

theorem getD_append_self : ∀ (l : List String) (x d : String),
    (l ++ [x]).getD l.length d = x
  | [], _, _ => rfl
  | _ :: rest, x, d => getD_append_self rest x d

theorem eraseIdx_append_self : ∀ (l : List String) (x : String),
    (l ++ [x]).eraseIdx l.length = l
  | [], _ => rfl
  | a :: rest, x => by
    rw [List.cons_append, List.length_cons, List.eraseIdx_cons_succ,
      eraseIdx_append_self rest x]

theorem togglePendingRow_eq {s : AppState} {tid : String}
    (hcur : s.current_tab_id = some tid)
    (hsome : (lookupTab s.tasks_by_tab tid).isSome = true)
    {i : Nat} (hi : i < s.pendingPane.length) :
    togglePendingRow s i =
      { s with
        pendingPane := s.pendingPane.eraseIdx i
        completedPane := s.completedPane ++ [s.pendingPane.getD i ""]
        tasks_by_tab :=
          updateTab tid (storeMarkCompleted (s.pendingPane.getD i "")) s.tasks_by_tab } := by
  simp only [togglePendingRow, hcur]
  rw [if_pos hsome, if_pos hi]

theorem toggleCompletedRow_eq {s : AppState} {tid : String}
    (hcur : s.current_tab_id = some tid)
    (hsome : (lookupTab s.tasks_by_tab tid).isSome = true)
    {i : Nat} (hi : i < s.completedPane.length) :
    toggleCompletedRow s i =
      { s with
        completedPane := s.completedPane.eraseIdx i
        pendingPane := s.pendingPane ++ [s.completedPane.getD i ""]
        tasks_by_tab :=
          updateTab tid (storeMarkPending (s.completedPane.getD i "")) s.tasks_by_tab } := by
  simp only [toggleCompletedRow, hcur]
  rw [if_pos hsome, if_pos hi]

/-- Toggling the pending row `i` and then toggling the row that was just
remounted at the end of the completed pane. -/
theorem double_toggle_pending_eq {s : AppState} {tid : String}
    (hcur : s.current_tab_id = some tid) {t₀ : TabTasks}
    (ht₀ : lookupTab s.tasks_by_tab tid = some t₀) {i : Nat}
    (hi : i < s.pendingPane.length) :
    toggleCompletedRow (togglePendingRow s i) s.completedPane.length =
      { s with
        pendingPane := s.pendingPane.eraseIdx i ++ [s.pendingPane.getD i ""]
        completedPane := s.completedPane
        tasks_by_tab :=
          updateTab tid (storeMarkPending (s.pendingPane.getD i ""))
            (updateTab tid (storeMarkCompleted (s.pendingPane.getD i ""))
              s.tasks_by_tab) } := by
  have hsome : (lookupTab s.tasks_by_tab tid).isSome = true := by rw [ht₀]; rfl
  rw [togglePendingRow_eq hcur hsome hi]
  simp only [toggleCompletedRow, hcur]
  rw [if_pos (show (lookupTab (updateTab tid
      (storeMarkCompleted (s.pendingPane.getD i "")) s.tasks_by_tab) tid).isSome = true by
    rw [lookupTab_updateTab _ ht₀]; rfl)]
  rw [if_pos (show s.completedPane.length <
      (s.completedPane ++ [s.pendingPane.getD i ""]).length by simp)]
  simp only [getD_append_self, eraseIdx_append_self]

/-- Toggling the completed row `i` and then toggling the row that was just
remounted at the end of the pending pane. -/
theorem double_toggle_completed_eq {s : AppState} {tid : String}
    (hcur : s.current_tab_id = some tid) {t₀ : TabTasks}
    (ht₀ : lookupTab s.tasks_by_tab tid = some t₀) {i : Nat}
    (hi : i < s.completedPane.length) :
    togglePendingRow (toggleCompletedRow s i) s.pendingPane.length =
      { s with
        completedPane := s.completedPane.eraseIdx i ++ [s.completedPane.getD i ""]
        pendingPane := s.pendingPane
        tasks_by_tab :=
          updateTab tid (storeMarkCompleted (s.completedPane.getD i ""))
            (updateTab tid (storeMarkPending (s.completedPane.getD i ""))
              s.tasks_by_tab) } := by
  have hsome : (lookupTab s.tasks_by_tab tid).isSome = true := by rw [ht₀]; rfl
  rw [toggleCompletedRow_eq hcur hsome hi]
  simp only [togglePendingRow, hcur]
  rw [if_pos (show (lookupTab (updateTab tid
      (storeMarkPending (s.completedPane.getD i "")) s.tasks_by_tab) tid).isSome = true by
    rw [lookupTab_updateTab _ ht₀]; rfl)]
  rw [if_pos (show s.pendingPane.length <
      (s.pendingPane ++ [s.completedPane.getD i ""]).length by simp)]
  simp only [getD_append_self, eraseIdx_append_self]

theorem saveCurrentTasks_getTabD (s' : AppState) (tid : String) {e : TabTasks}
    (hcur : s'.current_tab_id = some tid)
    (he : lookupTab s'.tasks_by_tab tid = some e) :
    getTabD (saveCurrentTasks s').tasks_by_tab tid =
      ⟨s'.pendingPane, s'.completedPane⟩ := by
  rw [getTabD, saveCurrentTasks_lookup hcur he]
  rfl

/-- C6, counterexample: the claim quantifies over every state with an active
tab; in a state whose active tab displays "A" in both panes (such a state is
reachable, compare `c1_counterexample`), toggling the pending row "A" twice
and then reconciling leaves "A" both in the pending and in the completed
Store list, so the text is not contained "in the original list and in no
other". -/
theorem c6_counterexample :
    "A" ∈ (getTabD (saveCurrentTasks (toggleCompletedRow (togglePendingRow
        (AppState.mk [("tab-1", "Today")] [("tab-1", ⟨["A"], ["A"]⟩)]
          (some "tab-1") ["A"] ["A"] []) 0) 1)).tasks_by_tab "tab-1").not_completed ∧
    "A" ∈ (getTabD (saveCurrentTasks (toggleCompletedRow (togglePendingRow
        (AppState.mk [("tab-1", "Today")] [("tab-1", ⟨["A"], ["A"]⟩)]
          (some "tab-1") ["A"] ["A"] []) 0) 1)).tasks_by_tab "tab-1").completed := by
  decide

/-- C6 (amended): in a state with an active tab whose Store entry exists,
toggling a task row twice (the second toggle hits the row remounted at the
end of the opposite pane) returns the task to its original pane with its
original text, and after a reconcile the active tab's Store holds that text
in the list belonging to the original pane and — provided the text was not
also displayed in the opposite pane — in no other list. -/
theorem c6_toggle_involutive (s : AppState) (tid : String) (i : Nat)
    (hcur : s.current_tab_id = some tid) {t₀ : TabTasks}
    (ht₀ : lookupTab s.tasks_by_tab tid = some t₀) :
    (∀ _ : i < s.pendingPane.length, s.pendingPane.getD i "" ∉ s.completedPane →
      s.pendingPane.getD i "" ∈
        (toggleCompletedRow (togglePendingRow s i) s.completedPane.length).pendingPane ∧
      s.pendingPane.getD i "" ∈
        (getTabD (saveCurrentTasks (toggleCompletedRow (togglePendingRow s i)
          s.completedPane.length)).tasks_by_tab tid).not_completed ∧
      s.pendingPane.getD i "" ∉
        (getTabD (saveCurrentTasks (toggleCompletedRow (togglePendingRow s i)
          s.completedPane.length)).tasks_by_tab tid).completed) ∧
    (∀ _ : i < s.completedPane.length, s.completedPane.getD i "" ∉ s.pendingPane →
      s.completedPane.getD i "" ∈
        (togglePendingRow (toggleCompletedRow s i) s.pendingPane.length).completedPane ∧
      s.completedPane.getD i "" ∈
        (getTabD (saveCurrentTasks (togglePendingRow (toggleCompletedRow s i)
          s.pendingPane.length)).tasks_by_tab tid).completed ∧
      s.completedPane.getD i "" ∉
        (getTabD (saveCurrentTasks (togglePendingRow (toggleCompletedRow s i)
          s.pendingPane.length)).tasks_by_tab tid).not_completed) := by
  constructor
  · intro hi hnot
    have hdt := double_toggle_pending_eq hcur ht₀ hi
    have hcur2 : (toggleCompletedRow (togglePendingRow s i)
        s.completedPane.length).current_tab_id = some tid := by
      rw [hdt]; exact hcur
    have he2 : lookupTab (toggleCompletedRow (togglePendingRow s i)
          s.completedPane.length).tasks_by_tab tid =
        some (storeMarkPending (s.pendingPane.getD i "")
          (storeMarkCompleted (s.pendingPane.getD i "") t₀)) := by
      rw [hdt]; exact lookupTab_updateTab _ (lookupTab_updateTab _ ht₀)
    rw [saveCurrentTasks_getTabD _ tid hcur2 he2, hdt]
    exact ⟨List.mem_append_right _ (List.mem_singleton_self _),
      List.mem_append_right _ (List.mem_singleton_self _), hnot⟩
  · intro hi hnot
    have hdt := double_toggle_completed_eq hcur ht₀ hi
    have hcur2 : (togglePendingRow (toggleCompletedRow s i)
        s.pendingPane.length).current_tab_id = some tid := by
      rw [hdt]; exact hcur
    have he2 : lookupTab (togglePendingRow (toggleCompletedRow s i)
          s.pendingPane.length).tasks_by_tab tid =
        some (storeMarkCompleted (s.completedPane.getD i "")
          (storeMarkPending (s.completedPane.getD i "") t₀)) := by
      rw [hdt]; exact lookupTab_updateTab _ (lookupTab_updateTab _ ht₀)
    rw [saveCurrentTasks_getTabD _ tid hcur2 he2, hdt]
    exact ⟨List.mem_append_right _ (List.mem_singleton_self _),
      List.mem_append_right _ (List.mem_singleton_self _), hnot⟩

/-- C6, witness: the amended theorem applied in a clean one-task state. -/
theorem c6_toggle_involutive_witness :
    "A" ∈ (toggleCompletedRow (togglePendingRow
      (AppState.mk [("tab-1", "Today")] [("tab-1", ⟨["A"], []⟩)]
        (some "tab-1") ["A"] [] []) 0) 0).pendingPane ∧
    "A" ∈ (getTabD (saveCurrentTasks (toggleCompletedRow (togglePendingRow
      (AppState.mk [("tab-1", "Today")] [("tab-1", ⟨["A"], []⟩)]
        (some "tab-1") ["A"] [] []) 0) 0)).tasks_by_tab "tab-1").not_completed ∧
    "A" ∉ (getTabD (saveCurrentTasks (toggleCompletedRow (togglePendingRow
      (AppState.mk [("tab-1", "Today")] [("tab-1", ⟨["A"], []⟩)]
        (some "tab-1") ["A"] [] []) 0) 0)).tasks_by_tab "tab-1").completed :=
  (c6_toggle_involutive
    (AppState.mk [("tab-1", "Today")] [("tab-1", ⟨["A"], []⟩)]
      (some "tab-1") ["A"] [] []) "tab-1" 0 rfl rfl).1
    (by decide) (by decide)

/-! ### Claim C8: deleting a row -/

theorem updateTab_eq_self {k : String} {f : TabTasks → TabTasks} :
    ∀ {l : List (String × TabTasks)} {t₀ : TabTasks},
      lookupTab l k = some t₀ → f t₀ = t₀ → updateTab k f l = l
  | [], _, h, _ => Option.noConfusion h
  | q :: rest, t₀, h, hf => by
    rcases q with ⟨qk, qv⟩
    cases hbeq : (qk == k) with
    | true =>
      have hq : qk = k := beq_iff_eq.mp hbeq
      simp only [lookupTab, List.find?_cons, hbeq] at h
      have hqt : qv = t₀ := Option.some.inj h
      rw [updateTab, if_pos hq]
      dsimp only
      rw [hqt, hf]
    | false =>
      have hq : ¬ qk = k := fun he => by rw [he] at hbeq; simp at hbeq
      simp only [lookupTab, List.find?_cons, hbeq] at h
      rw [updateTab, if_neg hq, updateTab_eq_self h hf]

theorem storeDelete_not_found {x : String} {t : TabTasks}
    (hn : x ∉ t.not_completed) (hc : x ∉ t.completed) : storeDelete x t = t := by
  rw [storeDelete, if_neg hn, if_neg hc]

theorem storeDelete_in_pending {x : String} {t : TabTasks}
    (hn : x ∈ t.not_completed) :
    storeDelete x t = ⟨t.not_completed.erase x, t.completed⟩ := by
  rw [storeDelete, if_pos hn]

theorem storeDelete_in_completed {x : String} {t : TabTasks}
    (hn : x ∉ t.not_completed) (hc : x ∈ t.completed) :
    storeDelete x t = ⟨t.not_completed, t.completed.erase x⟩ := by
  rw [storeDelete, if_neg hn, if_pos hc]

theorem deletePendingRow_eq {s : AppState} {tid : String}
    (hcur : s.current_tab_id = some tid) (htid : tid ≠ "")
    (hsome : (lookupTab s.tasks_by_tab tid).isSome = true)
    {i : Nat} (hi : i < s.pendingPane.length) :
    deletePendingRow s i =
      { s with
        pendingPane := s.pendingPane.eraseIdx i
        tasks_by_tab :=
          updateTab tid (storeDelete (s.pendingPane.getD i "")) s.tasks_by_tab } := by
  rw [deletePendingRow, if_pos hi]
  simp only [hcur]
  rw [if_pos ⟨htid, hsome⟩]

theorem deleteCompletedRow_eq {s : AppState} {tid : String}
    (hcur : s.current_tab_id = some tid) (htid : tid ≠ "")
    (hsome : (lookupTab s.tasks_by_tab tid).isSome = true)
    {i : Nat} (hi : i < s.completedPane.length) :
    deleteCompletedRow s i =
      { s with
        completedPane := s.completedPane.eraseIdx i
        tasks_by_tab :=
          updateTab tid (storeDelete (s.completedPane.getD i "")) s.tasks_by_tab } := by
  rw [deleteCompletedRow, if_pos hi]
  simp only [hcur]
  rw [if_pos ⟨htid, hsome⟩]

/-- C8: in a state with an active tab (a truthy id with a Store entry),
deleting a row removes it from its pane and leaves the other pane alone,
and the Store change is exactly `storeDelete` of the row's text: when the
text is in neither Store list the whole `tasks_by_tab` is unchanged (no
exception, no change to any other task); when it is in the pending list it
is removed from there; otherwise, when it is in the completed list, it is
removed from there. -/
theorem c8_delete_unknown_noop (s : AppState) (tid : String) (i : Nat)
    (hcur : s.current_tab_id = some tid) (htid : tid ≠ "") {t₀ : TabTasks}
    (ht₀ : lookupTab s.tasks_by_tab tid = some t₀) :
    (∀ _ : i < s.pendingPane.length,
      (deletePendingRow s i).pendingPane = s.pendingPane.eraseIdx i ∧
      (deletePendingRow s i).completedPane = s.completedPane ∧
      (deletePendingRow s i).tasks_by_tab =
        updateTab tid (storeDelete (s.pendingPane.getD i "")) s.tasks_by_tab) ∧
    (∀ _ : i < s.completedPane.length,
      (deleteCompletedRow s i).completedPane = s.completedPane.eraseIdx i ∧
      (deleteCompletedRow s i).pendingPane = s.pendingPane ∧
      (deleteCompletedRow s i).tasks_by_tab =
        updateTab tid (storeDelete (s.completedPane.getD i "")) s.tasks_by_tab) ∧
    (∀ x : String,
      (x ∉ t₀.not_completed → x ∉ t₀.completed →
        updateTab tid (storeDelete x) s.tasks_by_tab = s.tasks_by_tab) ∧
      (x ∈ t₀.not_completed →
        lookupTab (updateTab tid (storeDelete x) s.tasks_by_tab) tid =
          some ⟨t₀.not_completed.erase x, t₀.completed⟩) ∧
      (x ∉ t₀.not_completed → x ∈ t₀.completed →
        lookupTab (updateTab tid (storeDelete x) s.tasks_by_tab) tid =
          some ⟨t₀.not_completed, t₀.completed.erase x⟩)) := by
  have hsome : (lookupTab s.tasks_by_tab tid).isSome = true := by rw [ht₀]; rfl
  refine ⟨fun hi => ?_, fun hi => ?_, fun x => ⟨fun hn hc => ?_, fun hn => ?_, fun hn hc => ?_⟩⟩
  · rw [deletePendingRow_eq hcur htid hsome hi]
    exact ⟨rfl, rfl, rfl⟩
  · rw [deleteCompletedRow_eq hcur htid hsome hi]
    exact ⟨rfl, rfl, rfl⟩
  · exact updateTab_eq_self ht₀ (storeDelete_not_found hn hc)
  · rw [lookupTab_updateTab _ ht₀, storeDelete_in_pending hn]
  · rw [lookupTab_updateTab _ ht₀, storeDelete_in_completed hn hc]

/-- A state whose displayed pending row "Z" is stale: the Store knows only
"A" and "B". -/
def deleteSample : AppState :=
  { tabsWidget := [("tab-1", "Today")]
    tasks_by_tab := [("tab-1", ⟨["A"], ["B"]⟩)]
    current_tab_id := some "tab-1"
    pendingPane := ["Z"]
    completedPane := []
    saved_tabs := [] }

/-- C8, witness: deleting the stale row "Z" removes it from the display but
leaves the Store untouched. -/
theorem c8_delete_unknown_noop_witness :
    (deletePendingRow deleteSample 0).pendingPane = [] ∧
    updateTab "tab-1" (storeDelete "Z") deleteSample.tasks_by_tab =
      deleteSample.tasks_by_tab := by
  have h := c8_delete_unknown_noop deleteSample "tab-1" 0 rfl (by decide) rfl
  refine ⟨?_, (h.2.2 "Z").1 (by decide) (by decide)⟩
  rw [(h.1 (by decide)).1]
  rfl

/-! ### Claim C9: a failing write is swallowed -/

/-- The `tabs_data` list built by `_save_data_after_refresh` (app.py
110-123): one record per `Tab` widget, in widget order, with the tab's
label and its `tasks_by_tab` entry (missing entries default to empty). -/
def tabsDataOf (s : AppState) : List TabRec :=
  s.tabsWidget.map (fun p => ⟨p.2, getTabD s.tasks_by_tab p.1⟩)

/-- Models `_save_data_after_refresh` (app.py 103-131) with an explicit flag that
tells whether `open`/`json.dump` raises `IOError`.  It first runs the
reconciler, builds `tabs_data`, assigns `self.saved_tabs = tabs_data`
*before* the `try` block, and then attempts the write; `except IOError:
pass` swallows a failure, so the returned in-memory state does not depend on
the flag — only the document on disk (the second component, `none` when the
write failed) does. -/
def saveDataAfterRefresh (s : AppState) (ioFail : Bool) : AppState × Option Json :=
  let s1 := saveCurrentTasks s
  let tabsData := tabsDataOf s1
  ({ s1 with saved_tabs := tabsData },
    if ioFail then none else some (saveDoc tabsData))

/-- A state whose `saved_tabs` cache differs from the data a save would
write. -/
def staleSavedTabsSample : AppState :=
  { tabsWidget := [("tab-1", "Today")]
    tasks_by_tab := [("tab-1", ⟨["A"], []⟩)]
    current_tab_id := some "tab-1"
    pendingPane := ["A"]
    completedPane := []
    saved_tabs := [] }

/-- C9, counterexample: the claim says that after a failed write every
in-memory field equals what it would be had the save never been attempted,
except for the reconcile.  But `_save_data_after_refresh` assigns
`self.saved_tabs = tabs_data` before the `try` block, and the reconcile
(`_save_current_tasks`) never touches `saved_tabs`; in the sample state the
failed save changes `saved_tabs` from `[]` to the built tab data. -/
theorem c9_counterexample :
    (saveDataAfterRefresh staleSavedTabsSample true).1.saved_tabs ≠
      (saveCurrentTasks staleSavedTabsSample).saved_tabs ∧
    (saveCurrentTasks staleSavedTabsSample).saved_tabs =
      staleSavedTabsSample.saved_tabs := by
  constructor
  · intro h
    exact absurd h (by decide)
  · decide

/-- C9 (amended): an `IOError` during the write is swallowed, and the
in-memory state after a failed save equals the in-memory state after a
successful save: the reconcile runs and `saved_tabs` is set to the tab data
that was meant to be written; the tab widgets, the active tab and the two
panes are untouched.  Only the document on disk depends on the failure
flag. -/
theorem c9_save_failure_swallowed (s : AppState) (ioFail : Bool) :
    (saveDataAfterRefresh s ioFail).1 =
      { saveCurrentTasks s with saved_tabs := tabsDataOf (saveCurrentTasks s) } ∧
    (saveDataAfterRefresh s ioFail).1 = (saveDataAfterRefresh s true).1 ∧
    (saveDataAfterRefresh s ioFail).1.tabsWidget = s.tabsWidget ∧
    (saveDataAfterRefresh s ioFail).1.current_tab_id = s.current_tab_id ∧
    (saveDataAfterRefresh s ioFail).1.pendingPane = s.pendingPane ∧
    (saveDataAfterRefresh s ioFail).1.completedPane = s.completedPane ∧
    (saveDataAfterRefresh s ioFail).2 =
      (if ioFail then none
       else some (saveDoc (tabsDataOf (saveCurrentTasks s)))) := by
  have hproj : (saveCurrentTasks s).tabsWidget = s.tabsWidget ∧
      (saveCurrentTasks s).current_tab_id = s.current_tab_id ∧
      (saveCurrentTasks s).pendingPane = s.pendingPane ∧
      (saveCurrentTasks s).completedPane = s.completedPane := by
    rw [saveCurrentTasks]
    rcases hs : s.current_tab_id with _ | tid
    · exact ⟨rfl, hs, rfl, rfl⟩
    · dsimp only
      split
      · exact ⟨rfl, rfl, rfl, rfl⟩
      · exact ⟨rfl, hs, rfl, rfl⟩
  exact ⟨rfl, rfl, hproj.1, hproj.2.1, hproj.2.2.1, hproj.2.2.2, rfl⟩

/-! ### Claims C7 and C10: focus navigation -/

/-- Models `action_next_tab` (app.py 400-407): with at least one tab and an active
tab, activate `tab_ids[(tab_ids.index(active_id) + 1) % len(tab_ids)]`;
otherwise nothing changes. -/
def actionNextTab (ids : List String) (active : Option String) : Option String :=
  match active with
  | none => none
  | some a =>
    if 0 < ids.length then
      some (ids.getD ((ids.indexOf a + 1) % ids.length) "")
    else some a

/-- Models `action_next_task` (app.py 428-445): `all_tasks` is the pending rows
followed by the completed rows; with no row of the list focused, focus row
0; with row `i` focused, focus `(i + 1) % len`; no-op when the list is
empty.  `focused = some i` with `i ≥ length` plays the role of a focused
widget that is not in `all_tasks`. -/
def actionNextTask (allTasks : List String) (focused : Option Nat) : Option Nat :=
  if allTasks.length = 0 then focused
  else
    match focused with
    | some i =>
      if i < allTasks.length then some ((i + 1) % allTasks.length) else some 0
    | none => some 0

/-- Models `action_prev_task` (app.py 409-426): like `action_next_task` but moving
to Python's `(i - 1) % len` — written `(i + len - 1) % len`, which agrees
with it for `i < len` — and focusing the last row (`all_tasks[-1]`) when no
row of the list is focused. -/
def actionPrevTask (allTasks : List String) (focused : Option Nat) : Option Nat :=
  if allTasks.length = 0 then focused
  else
    match focused with
    | some i =>
      if i < allTasks.length then
        some ((i + allTasks.length - 1) % allTasks.length)
      else some (allTasks.length - 1)
    | none => some (allTasks.length - 1)

theorem indexOf_getD_of_nodup (l : List String) (i : Nat) (hnd : l.Nodup)
    (hi : i < l.length) : l.indexOf (l.getD i "") = i := by
  have hmem : l.getD i "" ∈ l := by
    rw [List.getD_eq_getElem _ _ hi]
    exact List.getElem_mem hi
  have hlt : l.indexOf (l.getD i "") < l.length := List.indexOf_lt_length.2 hmem
  have heq : l[l.indexOf (l.getD i "")] = l[i] := by
    rw [List.getElem_indexOf hlt]
    exact List.getD_eq_getElem l "" hi
  exact (List.Nodup.getElem_inj_iff hnd).mp heq

theorem getD_append_right_last : ∀ (p c : List String), c ≠ [] →
    (p ++ c).getD ((p ++ c).length - 1) "" = c.getD (c.length - 1) ""
  | [], _, _ => by rw [List.nil_append]
  | a :: p, c, hc => by
    have hclen : 0 < c.length := List.length_pos.mpr hc
    have h1 : (a :: (p ++ c)).length - 1 = ((p ++ c).length - 1) + 1 := by
      simp only [List.length_cons, List.length_append]
      omega
    rw [List.cons_append, h1, List.getD_cons_succ]
    exact getD_append_right_last p c hc

/-- C7: tab navigation wraps — next-tab from the tab at index `i` activates
the tab at index `(i + 1) % count`, in particular from the last tab the
first; and task navigation — with no task focused, next-task focuses the
first task of the pending-then-completed order, and with the last task
focused it wraps to the first. -/
theorem c7_navigation_wraps :
    (∀ (ids : List String) (i : Nat), ids.Nodup → i < ids.length →
      actionNextTab ids (some (ids.getD i "")) =
        some (ids.getD ((i + 1) % ids.length) "")) ∧
    (∀ ids : List String, ids ≠ [] → ids.Nodup →
      actionNextTab ids (some (ids.getD (ids.length - 1) "")) =
        some (ids.getD 0 "")) ∧
    (∀ pending completed : List String, pending ++ completed ≠ [] →
      actionNextTask (pending ++ completed) none = some 0) ∧
    (∀ pending completed : List String, pending ++ completed ≠ [] →
      actionNextTask (pending ++ completed)
        (some ((pending ++ completed).length - 1)) = some 0) := by
  have hmain : ∀ (ids : List String) (i : Nat), ids.Nodup → i < ids.length →
      actionNextTab ids (some (ids.getD i "")) =
        some (ids.getD ((i + 1) % ids.length) "") := by
    intro ids i hnd hi
    simp only [actionNextTab]
    rw [if_pos (Nat.lt_of_le_of_lt (Nat.zero_le i) hi)]
    rw [indexOf_getD_of_nodup ids i hnd hi]
  refine ⟨hmain, ?_, ?_, ?_⟩
  · intro ids hne hnd
    have hlen : 0 < ids.length := List.length_pos.mpr hne
    have h := hmain ids (ids.length - 1) hnd (by omega)
    rwa [Nat.sub_add_cancel hlen, Nat.mod_self] at h
  · intro p c hne
    have hlen : 0 < (p ++ c).length := List.length_pos.mpr hne
    simp only [actionNextTask]
    rw [if_neg (by omega)]
  · intro p c hne
    have hlen : 0 < (p ++ c).length := List.length_pos.mpr hne
    simp only [actionNextTask]
    rw [if_neg (by omega), if_pos (by omega), Nat.sub_add_cancel hlen, Nat.mod_self]

/-- C7, witness: three tabs with the last active wrap to the first; a
two-row task list focuses row 0 from nothing and wraps from the last row. -/
theorem c7_navigation_wraps_witness :
    (["t1", "t2", "t3"] : List String).Nodup ∧
    actionNextTab ["t1", "t2", "t3"]
      (some ((["t1", "t2", "t3"] : List String).getD 2 "")) =
      some ((["t1", "t2", "t3"] : List String).getD 0 "") ∧
    actionNextTask (["a"] ++ ["b"]) none = some 0 ∧
    actionNextTask (["a"] ++ ["b"]) (some ((["a"] ++ ["b"]).length - 1)) = some 0 :=
  ⟨by decide,
   c7_navigation_wraps.2.1 ["t1", "t2", "t3"] (by decide) (by decide),
   c7_navigation_wraps.2.2.1 ["a"] ["b"] (by decide),
   c7_navigation_wraps.2.2.2 ["a"] ["b"] (by decide)⟩

/-- C10: previous-task with no task focused focuses the last row of the
pending-then-completed order — which is the last completed row, or the last
pending row when the completed pane is empty — and with the first row
focused it wraps to the last. -/
theorem c10_prev_task_wraps :
    (∀ pending completed : List String, pending ++ completed ≠ [] →
      actionPrevTask (pending ++ completed) none =
        some ((pending ++ completed).length - 1)) ∧
    (∀ pending completed : List String, pending ++ completed ≠ [] →
      actionPrevTask (pending ++ completed) (some 0) =
        some ((pending ++ completed).length - 1)) ∧
    (∀ pending completed : List String, completed ≠ [] →
      (pending ++ completed).getD ((pending ++ completed).length - 1) "" =
        completed.getD (completed.length - 1) "") ∧
    (∀ pending : List String,
      (pending ++ ([] : List String)).getD
        ((pending ++ ([] : List String)).length - 1) "" =
        pending.getD (pending.length - 1) "") := by
  refine ⟨?_, ?_, fun p c hc => getD_append_right_last p c hc, fun p => ?_⟩
  · intro p c hne
    have hlen : 0 < (p ++ c).length := List.length_pos.mpr hne
    simp only [actionPrevTask]
    rw [if_neg (by omega)]
  · intro p c hne
    have hlen : 0 < (p ++ c).length := List.length_pos.mpr hne
    simp only [actionPrevTask]
    rw [if_neg (by omega), if_pos hlen,
      Nat.zero_add, Nat.mod_eq_of_lt (by omega)]
  · rw [List.append_nil]

/-- C10, witness: with panes ["a"] and ["b", "c"], previous-task from
nothing and from row 0 focuses the last row, whose text is the last
completed row "c"; with an empty completed pane the last row is the last
pending row. -/
theorem c10_prev_task_wraps_witness :
    actionPrevTask (["a"] ++ ["b", "c"]) none =
      some (((["a"] ++ ["b", "c"]) : List String).length - 1) ∧
    actionPrevTask (["a"] ++ ["b", "c"]) (some 0) =
      some (((["a"] ++ ["b", "c"]) : List String).length - 1) ∧
    ((["a"] ++ ["b", "c"]) : List String).getD
      (((["a"] ++ ["b", "c"]) : List String).length - 1) "" =
      (["b", "c"] : List String).getD 1 "" ∧
    ((["x", "y"] ++ ([] : List String)) : List String).getD
      (((["x", "y"] ++ ([] : List String)) : List String).length - 1) "" =
      (["x", "y"] : List String).getD 1 "" :=
  ⟨c10_prev_task_wraps.1 ["a"] ["b", "c"] (by decide),
   c10_prev_task_wraps.2.1 ["a"] ["b", "c"] (by decide),
   c10_prev_task_wraps.2.2.1 ["a"] ["b", "c"] (by decide),
   c10_prev_task_wraps.2.2.2 ["x", "y"]⟩

end TerminalTodo
